import Mathlib

/-!
Shallow embedding of the free-list allocator of src/alloc.c: the byte-level
memory, the header accessors, and the functions split, find_prev, find_next,
remove_free_block, coalesce, do_alloc, tumalloc, tucalloc, turealloc and
tufree, translated statement by statement from the C source.  List-walking
loops take an explicit fuel argument; every theorem about a run supplies
fuel large enough that the walk finishes (or shows the walk cannot finish).
-/

namespace TuAlloc

/-- Byte-addressable memory: a total map from addresses to byte values. -/
abbrev Mem := Nat → Nat

/-- Write one byte (value taken mod 256) at address a. -/
def writeByte (m : Mem) (a v : Nat) : Mem := fun x => if x = a then v % 256 else m x

/-- Write n bytes of v at addresses a, a+1, ..., low byte first (the target
is 64-bit little-endian). -/
def writeLE (m : Mem) (a v : Nat) : Nat → Mem
  | 0 => m
  | n + 1 => writeLE (writeByte m a v) (a + 1) (v / 256) n

/-- Read n bytes starting at a as a little-endian number; a cell is read
mod 256, as a byte of hardware memory. -/
def readLE (m : Mem) (a : Nat) : Nat → Nat
  | 0 => 0
  | n + 1 => m a % 256 + 256 * readLE m (a + 1) n

/-- The corruption sentinel 0x01234567 stamped by tumalloc and checked by
tufree (alloc.c lines 179 and 255). -/
def SENTINEL : Nat := 0x01234567

/-- The modulus of a 64-bit machine word / pointer. -/
def ptrMod : Nat := 2 ^ 64

/-- Modelled from the spec: alloc.h, which declares free_block, is not under
src/; section 3 of the design gives the header the fields size then next, and
the code uses sizeof(free_block) as the header size together with 16-byte
alignment, so on the 64-bit little-endian target the header is 16 bytes:
size (a size_t, 8 bytes) at offset 0 and next (a pointer, 8 bytes) at
offset 8. -/
def headerSize : Nat := 16

/-- The size field of the header at a: 8 bytes at offset 0. -/
def hdrSize (m : Mem) (a : Nat) : Nat := readLE m a 8

/-- The next field of the header at a: 8 bytes at offset 8. -/
def hdrNext (m : Mem) (a : Nat) : Nat := readLE m (a + 8) 8

/-- Store the size field of the header at a. -/
def setSize (m : Mem) (a v : Nat) : Mem := writeLE m a v 8

/-- Store the next field of the header at a. -/
def setNext (m : Mem) (a v : Nat) : Mem := writeLE m (a + 8) v 8

/-- The allocator's state: the byte memory, the free-list head HEAD
(0 is NULL), the program break, and whether sbrk grants further growth. -/
structure AllocState where
  mem : Mem
  head : Nat
  brk : Nat
  growOk : Bool

/-- Outcome of an operation that can abort the process: tufree's corruption
branch prints the header address and calls abort. -/
inductive CResult where
  | ok (s : AllocState) (val : Nat)
  | abort (addr : Nat)

/-- The state carried by a normal result (a placeholder for an aborted one). -/
def CResult.stateOf : CResult → AllocState
  | .ok s _ => s
  | .abort a => { mem := fun _ => 0, head := 0, brk := a, growOk := false }

/-- Whether the operation returned normally. -/
def CResult.isOk : CResult → Bool
  | .ok _ _ => true
  | .abort _ => false

/-- The memory after a successful split (alloc.c lines 25-31): the new
header's size is written at the split point from the candidate's old size,
then its next from the candidate's next, then the candidate's size field is
truncated to the requested size. -/
def splitMem (m : Mem) (block size : Nat) : Mem :=
  let split_pnt := block + size + headerSize
  let m1 := setSize m split_pnt (hdrSize m block - size - headerSize)
  let m2 := setNext m1 split_pnt (hdrNext m1 block)
  setSize m2 block size

/-- Faithful model of split (alloc.c lines 20-34): none models the NULL
return, taken exactly when the candidate's size field is below
size + sizeof(free_block); on success the C function returns the candidate
pointer itself and the memory becomes splitMem. -/
def split (m : Mem) (block size : Nat) : Option Mem :=
  if hdrSize m block < size + headerSize then none
  else some (splitMem m block size)

/-- Faithful model of find_prev (alloc.c lines 42-51): walk the free list
from curr for an entry whose end address equals block; fuel bounds the walk,
exhaustion yielding 0 (a walk the C loop never finishes). -/
def find_prev (m : Mem) : Nat → Nat → Nat → Nat
  | 0, _, _ => 0
  | fuel + 1, curr, block =>
    if curr = 0 then 0
    else if curr + hdrSize m curr + headerSize = block then curr
    else find_prev m fuel (hdrNext m curr) block

/-- Faithful model of find_next (alloc.c lines 59-69): the target end
address is computed once by the caller (line 60) and the list is walked for
an entry at exactly that address. -/
def find_next (m : Mem) : Nat → Nat → Nat → Nat
  | 0, _, _ => 0
  | fuel + 1, curr, target =>
    if curr = 0 then 0
    else if curr = target then curr
    else find_next m fuel (hdrNext m curr) target

/-- The scan loop of remove_free_block (alloc.c lines 82-88): unlink block
from the first entry whose next field points at it. -/
def removeScan (m : Mem) : Nat → Nat → Nat → Mem
  | 0, _, _ => m
  | fuel + 1, curr, block =>
    if curr = 0 then m
    else if hdrNext m curr = block then setNext m curr (hdrNext m block)
    else removeScan m fuel (hdrNext m curr) block

/-- Faithful model of remove_free_block (alloc.c lines 76-89): returns the
updated memory and the updated HEAD. -/
def remove_free_block (m : Mem) (fuel head block : Nat) : Mem × Nat :=
  if head = block then (m, hdrNext m block)
  else (removeScan m fuel head block, head)

/-- Faithful model of coalesce (alloc.c lines 97-131): look up the previous
and next address-contiguous neighbors in the pre-merge memory, absorb the
block into a contiguous previous neighbor (relinking only when that
neighbor's next points straight at the block), then absorb a contiguous
next neighbor into the result.  Returns the memory and the final block. -/
def coalesce (m : Mem) (fuel head block : Nat) : Mem × Nat :=
  if block = 0 then (m, 0)
  else
    let prev := find_prev m fuel head block
    let next := find_next m fuel head (block + hdrSize m block + headerSize)
    let step1 : Mem × Nat :=
      if prev ≠ 0 ∧ prev + hdrSize m prev + headerSize = block then
        let ma := setSize m prev (hdrSize m prev + (hdrSize m block + headerSize))
        let mb := if hdrNext ma prev = block then setNext ma prev (hdrNext ma block) else ma
        (mb, prev)
      else (m, block)
    if next ≠ 0 ∧ step1.2 + hdrSize step1.1 step1.2 + headerSize = next then
      let mc := setSize step1.1 step1.2
        (hdrSize step1.1 step1.2 + (hdrSize step1.1 next + headerSize))
      let md := setNext mc step1.2 (hdrNext mc next)
      (md, step1.2)
    else step1

/-- Faithful model of do_alloc (alloc.c lines 139-149): sbrk(size +
sizeof(free_block)) returns the old break and advances it, or the all-ones
address on failure without moving the break; a misaligned address is rounded
up to the alignment boundary (in 64-bit wrapping arithmetic) before the
failure test, and the result is the possibly-rounded address. -/
def do_alloc (s : AllocState) (size : Nat) : AllocState × Nat :=
  let raw := if s.growOk then s.brk else ptrMod - 1
  let brk' := if s.growOk then s.brk + (size + headerSize) else s.brk
  let ptr := if raw % 16 ≠ 0 then (raw + 16 - 1) % ptrMod / 16 * 16 else raw
  let res := if ptr = ptrMod - 1 then 0 else ptr
  ({ s with brk := brk' }, res)

/-- The two header writes tumalloc performs after a successful split
(alloc.c lines 176-179): the full size field is assigned the requested
size, then the 4-byte sentinel is written at the header's base address,
over the low four bytes of that same size field. -/
def stampAllocated (m : Mem) (block size : Nat) : Mem :=
  writeLE (setSize m block size) block SENTINEL 4

/-- The while loop of tumalloc (alloc.c lines 164-183): on a fitting block
the code splits (returning NULL outright if the split fails), removes the
block from the free list, stamps it — and then keeps iterating instead of
returning.  Yields the final memory and head, plus some v for an early
return of v and none for a normal loop exit. -/
def tumallocLoop (size : Nat) : Nat → Mem → Nat → Nat → (Mem × Nat) × Option Nat
  | 0, m, head, _ => ((m, head), none)
  | fuel + 1, m, head, curr =>
    if curr = 0 then ((m, head), none)
    else if size ≤ hdrSize m curr then
      match split m curr (size + headerSize) with
      | none => ((m, head), some 0)
      | some m1 =>
        let r := remove_free_block m1 fuel head curr
        let m4 := stampAllocated r.1 curr size
        tumallocLoop size fuel m4 r.2 (hdrNext m4 curr)
    else tumallocLoop size fuel m head (hdrNext m curr)

/-- Faithful model of tumalloc (alloc.c lines 157-192): with an empty free
list it returns do_alloc's address directly (the region base, not a payload
address, and no header is written); otherwise it runs the scan loop and
then always falls through to do_alloc, writes a header (size, next = NULL,
no sentinel) at the fresh region and returns region + headerSize. -/
def tumalloc (s : AllocState) (fuel size : Nat) : AllocState × Nat :=
  if s.head = 0 then
    do_alloc s (size + headerSize)
  else
    let r := tumallocLoop size fuel s.mem s.head s.head
    match r.2 with
    | some v => ({ s with mem := r.1.1, head := r.1.2 }, v)
    | none =>
      let s1 : AllocState := { s with mem := r.1.1, head := r.1.2 }
      let d := do_alloc s1 (size + headerSize)
      let m1 := setSize d.1.mem d.2 size
      let m2 := setNext m1 d.2 0
      ({ d.1 with mem := m2 }, d.2 + headerSize)

/-- memset(p, 0, n), byte by byte. -/
def memset0 : Mem → Nat → Nat → Mem
  | m, _, 0 => m
  | m, a, n + 1 => memset0 (writeByte m a 0) (a + 1) n

/-- Faithful model of tucalloc (alloc.c lines 201-210): the total is the
size_t product num * size, the allocation is delegated to tumalloc, and a
non-null result is zero-filled over the whole total. -/
def tucalloc (s : AllocState) (fuel num size : Nat) : AllocState × Nat :=
  let total := num * size % ptrMod
  let r := tumalloc s fuel total
  if r.2 ≠ 0 then ({ r.1 with mem := memset0 r.1.mem r.2 total }, r.2) else r

/-- memcpy(dst, src, n), byte by byte. -/
def memcpy : Mem → Nat → Nat → Nat → Mem
  | m, _, _, 0 => m
  | m, dst, src, n + 1 => memcpy (writeByte m dst (m src)) (dst + 1) (src + 1) n

/-- Faithful model of tufree (alloc.c lines 248-266): null is a no-op; the
header is headerSize below the pointer; with the sentinel in its first four
bytes the block's next is loaded with the old HEAD, HEAD becomes the block
and coalesce runs on it; otherwise the corrupt header address is reported
and the process aborts. -/
def tufree (s : AllocState) (fuel ptr : Nat) : CResult :=
  if ptr = 0 then CResult.ok s 0
  else if readLE s.mem (ptr - headerSize) 4 = SENTINEL then
    let hdr := ptr - headerSize
    let m1 := setNext s.mem hdr s.head
    let c := coalesce m1 fuel hdr hdr
    CResult.ok { s with mem := c.1, head := hdr } 0
  else CResult.abort (ptr - headerSize)

/-- Faithful model of turealloc (alloc.c lines 220-241): null reallocates
fresh; an equal size returns the pointer; a smaller size calls split and
returns the pointer whether or not the split succeeded; a larger size
allocates anew, copies block->size bytes, frees the old pointer (which can
abort) and returns the new pointer, or returns null leaving everything
untouched when the new allocation failed. -/
def turealloc (s : AllocState) (fuel ptr new_size : Nat) : CResult :=
  if ptr = 0 then
    let r := tumalloc s fuel new_size
    CResult.ok r.1 r.2
  else
    let block := ptr - headerSize
    if new_size = hdrSize s.mem block then CResult.ok s ptr
    else if new_size < hdrSize s.mem block then
      match split s.mem block new_size with
      | none => CResult.ok s ptr
      | some m' => CResult.ok { s with mem := m' } ptr
    else
      let r := tumalloc s fuel new_size
      if r.2 ≠ 0 then
        let m' := memcpy r.1.mem r.2 ptr (hdrSize r.1.mem block)
        match tufree { r.1 with mem := m' } fuel ptr with
        | .ok s2 _ => CResult.ok s2 r.2
        | .abort a => CResult.abort a
      else CResult.ok r.1 r.2

/-- The free list as the chain of headers reachable from head (fuel-bounded). -/
def freeList (m : Mem) : Nat → Nat → List Nat
  | 0, _ => []
  | fuel + 1, head => if head = 0 then [] else head :: freeList m fuel (hdrNext m head)

/-- All-zero memory: the model of fresh, untouched address space. -/
def mem0 : Mem := fun _ => 0

/-- C1 scenario: a free list holding one block at 32 of size 100, break 160. -/
def s1state : AllocState := { mem := setSize mem0 32 100, head := 32, brk := 160, growOk := true }

/-- C2 scenario: the pristine initial state, empty free list, break 4096. -/
def s2state : AllocState := { mem := mem0, head := 0, brk := 4096, growOk := true }

/-- C3 scenario: a free list holding one block at 32 of size 8 (too small
for the request, so tumalloc falls through to heap growth), break 4096. -/
def s3state : AllocState := { mem := setSize mem0 32 8, head := 32, brk := 4096, growOk := true }

/-- The state after allocating 0x01234567 bytes from s3state (payload 4112,
header 4096 whose size field's low four bytes coincide with the sentinel)
and releasing that pointer once. -/
def c3s2 : AllocState := CResult.stateOf (tufree (tumalloc s3state 10 SENTINEL).1 10 4112)

/-- C4 witness scenario: a header at 16 carrying the sentinel, payload 32. -/
def s4yes : AllocState := { mem := setSize mem0 16 SENTINEL, head := 0, brk := 64, growOk := true }

/-- C4 witness scenario: all-zero memory, no sentinel anywhere. -/
def s4no : AllocState := { mem := mem0, head := 0, brk := 64, growOk := true }

/-- C5 scenario: two address-adjacent releasable blocks, A at 64 and B at
64 + size_A + 16 = 19088823; a block passes tufree's check exactly when the
low four bytes of its size field are the sentinel, so both size fields are
0x01234567.  Payloads are 80 and 19088839. -/
def s5state : AllocState :=
  { mem := setSize (setSize mem0 64 SENTINEL) 19088823 SENTINEL,
    head := 0, brk := 2 ^ 25, growOk := true }

/-- s5state after releasing A's payload 80. -/
def c5s1 : AllocState := CResult.stateOf (tufree s5state 10 80)

/-- c5s1 after releasing B's payload 19088839. -/
def c5s2 : AllocState := CResult.stateOf (tufree c5s1 10 19088839)

/-- C6 scenario: an allocated block at 32 of size 20, payload 48. -/
def s6state : AllocState := { mem := setSize mem0 32 20, head := 0, brk := 4096, growOk := true }

/-- C6 witness scenario: an allocated block at 32 of size 100, payload 48. -/
def s6b : AllocState := { mem := setSize mem0 32 100, head := 0, brk := 4096, growOk := true }

/-- C7 witness scenario: a candidate block at 0 of size 10. -/
def c7small : Mem := setSize mem0 0 10

/-- C7 witness scenario: a candidate block at 0 of size 100. -/
def c7big : Mem := setSize mem0 0 100

/-- C8 scenario: a misaligned break of 8, growth granted. -/
def s8state : AllocState := { mem := mem0, head := 0, brk := 8, growOk := true }

/-- C8 scenario: sbrk refuses growth. -/
def s8fail : AllocState := { mem := mem0, head := 0, brk := 4096, growOk := false }

/-- C9 witness scenario: empty free list, aligned break, growth granted. -/
def s9a : AllocState := { mem := mem0, head := 0, brk := 4096, growOk := true }

/-- C9 witness scenario: empty free list, growth refused. -/
def s9b : AllocState := { mem := mem0, head := 0, brk := 4096, growOk := false }

/-- C10 scenario: one free block at 32 of size 0x01234567 + 32, exactly
enough for the split of an 0x01234567-byte request. -/
def s10state : AllocState :=
  { mem := setSize mem0 32 (SENTINEL + 32), head := 32, brk := 2 ^ 25, growOk := true }

/-- The n bytes starting at a written by writeLE are the little-endian
digits of v; every other cell is untouched. -/
theorem writeLE_apply : ∀ (n : Nat) (m : Mem) (a v x : Nat),
    writeLE m a v n x = if a ≤ x ∧ x < a + n then v / 256 ^ (x - a) % 256 else m x := by
  intro n
  induction n with
  | zero =>
    intro m a v x
    simp only [writeLE]
    rw [if_neg (by omega)]
  | succ n ih =>
    intro m a v x
    simp only [writeLE]
    rw [ih]
    by_cases h1 : a + 1 ≤ x ∧ x < a + 1 + n
    · rw [if_pos h1, if_pos (by omega)]
      have hx : x - a = x - (a + 1) + 1 := by omega
      have hp : (256 : Nat) ^ (x - (a + 1) + 1) = 256 * 256 ^ (x - (a + 1)) := by ring
      rw [Nat.div_div_eq_div_mul, ← hp, ← hx]
    · rw [if_neg h1]
      simp only [writeByte]
      by_cases h2 : x = a
      · subst h2
        rw [if_pos rfl, if_pos (by omega)]
        simp
      · rw [if_neg h2, if_neg (by omega)]

/-- A cell outside the written range is untouched. -/
theorem writeLE_out (m : Mem) (a v n x : Nat) (h : x < a ∨ a + n ≤ x) :
    writeLE m a v n x = m x := by
  rw [writeLE_apply, if_neg (by omega)]

/-- Reading depends only on the cells of the read range. -/
theorem readLE_congr : ∀ (n : Nat) (m₁ m₂ : Mem) (a : Nat),
    (∀ i, i < n → m₁ (a + i) = m₂ (a + i)) → readLE m₁ a n = readLE m₂ a n := by
  intro n
  induction n with
  | zero => intro _ _ _ _; rfl
  | succ n ih =>
    intro m₁ m₂ a h
    simp only [readLE]
    have h0 : m₁ a = m₂ a := by simpa using h 0 (by omega)
    have h1 : ∀ i, i < n → m₁ (a + 1 + i) = m₂ (a + 1 + i) := by
      intro i hi
      have := h (i + 1) (by omega)
      rwa [show a + (i + 1) = a + 1 + i by omega] at this
    rw [h0, ih m₁ m₂ (a + 1) h1]

/-- A read of n bytes is below 256 ^ n. -/
theorem readLE_lt : ∀ (n : Nat) (m : Mem) (a : Nat), readLE m a n < 256 ^ n := by
  intro n
  induction n with
  | zero => intro m a; simp [readLE]
  | succ n ih =>
    intro m a
    simp only [readLE]
    have h1 : m a % 256 < 256 := Nat.mod_lt _ (by norm_num)
    have h2 : readLE m (a + 1) n < 256 ^ n := ih m (a + 1)
    have h3 : (256 : Nat) ^ (n + 1) = 256 * 256 ^ n := by ring
    have h4 : 256 * readLE m (a + 1) n + 256 ≤ 256 * 256 ^ n := by
      calc 256 * readLE m (a + 1) n + 256 = 256 * (readLE m (a + 1) n + 1) := by ring
        _ ≤ 256 * 256 ^ n := Nat.mul_le_mul_left 256 h2
    omega

/-- Reading k bytes at offset j inside a fresh n-byte write recovers the
corresponding digits of the written value. -/
theorem readLE_writeLE_within (m : Mem) (a v n : Nat) :
    ∀ (k j : Nat), j + k ≤ n →
      readLE (writeLE m a v n) (a + j) k = v / 256 ^ j % 256 ^ k := by
  intro k
  induction k with
  | zero => intro j _; simp [readLE, Nat.mod_one]
  | succ k ih =>
    intro j hj
    simp only [readLE]
    have h1 : writeLE m a v n (a + j) = v / 256 ^ j % 256 := by
      rw [writeLE_apply, if_pos (by omega), Nat.add_sub_cancel_left]
    have h2 : readLE (writeLE m a v n) (a + j + 1) k = v / 256 ^ (j + 1) % 256 ^ k := by
      have := ih (j + 1) (by omega)
      rwa [show a + (j + 1) = a + j + 1 by omega] at this
    rw [h1, h2, Nat.mod_mod_of_dvd _ (dvd_refl 256)]
    have h3 : v / 256 ^ (j + 1) = v / 256 ^ j / 256 := by
      rw [Nat.div_div_eq_div_mul, ← pow_succ]
    have h4 : (256 : Nat) ^ (k + 1) = 256 * 256 ^ k := by ring
    rw [h3, h4, Nat.mod_mul]

/-- Reading a freshly written range back gives the value mod 256 ^ n. -/
theorem readLE_writeLE_same (m : Mem) (a v n : Nat) :
    readLE (writeLE m a v n) a n = v % 256 ^ n := by
  have := readLE_writeLE_within m a v n n 0 (by omega)
  simpa using this

/-- A read disjoint from a write sees the old memory. -/
theorem readLE_writeLE_disjoint (m : Mem) (a v n b k : Nat)
    (h : a + n ≤ b ∨ b + k ≤ a) :
    readLE (writeLE m a v n) b k = readLE m b k := by
  apply readLE_congr
  intro i hi
  exact writeLE_out m a v n (b + i) (by omega)

/-- A read of n + k bytes splits at the byte boundary n. -/
theorem readLE_split (m : Mem) : ∀ (n k a : Nat),
    readLE m a (n + k) = readLE m a n + 256 ^ n * readLE m (a + n) k := by
  intro n
  induction n with
  | zero => intro k a; simp [readLE]
  | succ n ih =>
    intro k a
    have hx : n + 1 + k = (n + k) + 1 := by omega
    rw [hx]
    simp only [readLE]
    rw [ih k (a + 1), show a + 1 + n = a + (n + 1) by omega]
    ring

/-- The cells memset0 zeroes and the cells it leaves alone. -/
theorem memset0_apply : ∀ (n : Nat) (m : Mem) (a x : Nat),
    memset0 m a n x = if a ≤ x ∧ x < a + n then 0 else m x := by
  intro n
  induction n with
  | zero =>
    intro m a x
    simp only [memset0]
    rw [if_neg (by omega)]
  | succ n ih =>
    intro m a x
    simp only [memset0]
    rw [ih]
    by_cases h1 : a + 1 ≤ x ∧ x < a + 1 + n
    · rw [if_pos h1, if_pos (by omega)]
    · rw [if_neg h1]
      simp only [writeByte]
      by_cases h2 : x = a
      · subst h2
        rw [if_pos rfl, if_pos (by omega)]
      · rw [if_neg h2, if_neg (by omega)]

/-- ptrMod as a power of the byte base. -/
theorem ptrMod_eq : ptrMod = 256 ^ 8 := by norm_num [ptrMod]

/-- split fails exactly on the guard of alloc.c line 21. -/
theorem split_eq_none_iff (m : Mem) (block size : Nat) :
    split m block size = none ↔ hdrSize m block < size + headerSize := by
  unfold split
  by_cases h : hdrSize m block < size + headerSize <;> simp [h]

/-- split succeeds exactly when the guard of alloc.c line 21 passes. -/
theorem split_eq_some (m : Mem) (block size : Nat)
    (h : size + headerSize ≤ hdrSize m block) :
    split m block size = some (splitMem m block size) := by
  unfold split
  rw [if_neg (by omega)]

/-- Field contents of splitMem: the candidate's size field is truncated to
the requested size (mod the word size), the new header at
block + size + headerSize holds the remainder and the candidate's old next
link, and every byte strictly between the candidate's size field and the
split point is untouched, as is everything below the block and everything
past the new header. -/
theorem splitMem_spec (m : Mem) (block size : Nat) :
    hdrSize (splitMem m block size) block = size % ptrMod ∧
    hdrSize (splitMem m block size) (block + size + headerSize)
      = hdrSize m block - size - headerSize ∧
    hdrNext (splitMem m block size) (block + size + headerSize) = hdrNext m block ∧
    (∀ x, block + 8 ≤ x → x < block + size + headerSize → splitMem m block size x = m x) ∧
    (∀ x, x < block → splitMem m block size x = m x) ∧
    (∀ x, block + size + 2 * headerSize ≤ x → splitMem m block size x = m x) := by
  have h16 : headerSize = 16 := rfl
  have hrem : readLE m block 8 - size - headerSize < 256 ^ 8 := by
    have := readLE_lt 8 m block
    omega
  have hnext : readLE m (block + 8) 8 < 256 ^ 8 := readLE_lt 8 m (block + 8)
  unfold splitMem
  simp only [hdrSize, hdrNext, setSize, setNext]
  refine ⟨?_, ?_, ?_, ?_, ?_, ?_⟩
  · rw [readLE_writeLE_same, ptrMod_eq]
  · rw [readLE_writeLE_disjoint _ _ _ _ _ _ (by omega),
      readLE_writeLE_disjoint _ _ _ _ _ _ (by omega),
      readLE_writeLE_same, Nat.mod_eq_of_lt hrem]
  · rw [readLE_writeLE_disjoint _ _ _ _ _ _ (by omega), readLE_writeLE_same,
      readLE_writeLE_disjoint _ _ _ _ _ _ (by omega),
      Nat.mod_eq_of_lt hnext]
  · intro x hx1 hx2
    rw [writeLE_out _ _ _ _ _ (by omega), writeLE_out _ _ _ _ _ (by omega),
      writeLE_out _ _ _ _ _ (by omega)]
  · intro x hx
    rw [writeLE_out _ _ _ _ _ (by omega), writeLE_out _ _ _ _ _ (by omega),
      writeLE_out _ _ _ _ _ (by omega)]
  · intro x hx
    rw [writeLE_out _ _ _ _ _ (by omega), writeLE_out _ _ _ _ _ (by omega),
      writeLE_out _ _ _ _ _ (by omega)]

/-- C1: the claim requires tumalloc's scan to stop at the first fitting
block, return its payload and not grow the heap after committing the split.
The code does not: from s1state (free list = one block at 32 of size 100,
break 160), tumalloc 16 commits the split — the block is removed from the
list (head becomes 0) and its header is stamped with the sentinel — yet the
loop keeps iterating, falls through to do_alloc (the break grows 160 to
208), and the call returns the fresh region's payload 176 instead of the
split block's payload 48. -/
theorem C1_scan_falls_through_after_split :
    (tumalloc s1state 10 16).2 = 176 ∧
    (tumalloc s1state 10 16).2 ≠ 48 ∧
    (tumalloc s1state 10 16).1.brk = 208 ∧
    (tumalloc s1state 10 16).1.head = 0 ∧
    readLE (tumalloc s1state 10 16).1.mem 32 4 = SENTINEL := by
  refine ⟨rfl, by decide, rfl, rfl, rfl⟩

/-- C2: the no-growth reuse round-trip Release(Allocate(s)) fails already at
s = 64: from the pristine state s2state, Allocate(64) takes the empty-list
path and returns the raw sbrk address 4096 — no header and no sentinel are
written on that path — so Release(4096) reads a missing sentinel at 4080 and
aborts; no freed block ever reaches the free list for a later Allocate to
reuse. -/
theorem C2_roundtrip_aborts_on_release :
    (tumalloc s2state 10 64).2 = 4096 ∧
    tufree (tumalloc s2state 10 64).1 10 4096 = CResult.abort 4080 := by
  exact ⟨rfl, rfl⟩

/-- C3: double release is not detected.  From s3state, Allocate(0x01234567)
returns payload 4112 via the heap-growth path, whose header's size field
(the requested size) has the sentinel as its low four bytes, so the first
Release succeeds; releasing never clears the sentinel, so it is still in
the header afterwards, and a second Release of 4112 passes the corruption
check for every fuel and returns normally instead of reporting and
terminating — it pushes the block onto the free list again, leaving it as
the head with its next field pointing at itself (the C scan then cycles on
this self-link forever; it never reaches the corruption report). -/
theorem C3_double_release_not_detected :
    (tumalloc s3state 10 SENTINEL).2 = 4112 ∧
    (tufree (tumalloc s3state 10 SENTINEL).1 10 4112).isOk = true ∧
    readLE c3s2.mem 4096 4 = SENTINEL ∧
    (∀ fuel, (tufree c3s2 fuel 4112).isOk = true) ∧
    (tufree c3s2 10 4112).stateOf.head = 4096 ∧
    hdrNext (tufree c3s2 10 4112).stateOf.mem 4096 = 4096 := by
  refine ⟨rfl, rfl, rfl, ?_, rfl, rfl⟩
  intro fuel
  have h : readLE c3s2.mem (4112 - headerSize) 4 = SENTINEL := rfl
  simp only [tufree, h]
  rw [if_neg (by omega)]
  simp [CResult.isOk]

/-- C4: tufree's contract (alloc.c lines 248-266).  A null pointer is a
no-op leaving the state unchanged.  Otherwise the header is located
headerSize below the pointer; when its first four bytes are the sentinel,
the result is a normal return whose head is the freed header, whose memory
is the coalescer run (with the same fuel) on the pushed state — the push
having loaded the block's next field with the old head, as the read-back
equation shows — and whose break is untouched; when the sentinel is absent
or altered the call reports the corrupt header address and the process
terminates (the abort result). -/
theorem C4_release_contract (s : AllocState) (fuel p : Nat) :
    (p = 0 → tufree s fuel p = CResult.ok s 0) ∧
    (p ≠ 0 → readLE s.mem (p - headerSize) 4 = SENTINEL →
      tufree s fuel p =
        CResult.ok
          { s with
            mem := (coalesce (setNext s.mem (p - headerSize) s.head) fuel
                (p - headerSize) (p - headerSize)).1,
            head := p - headerSize } 0 ∧
      hdrNext (setNext s.mem (p - headerSize) s.head) (p - headerSize)
        = s.head % ptrMod) ∧
    (p ≠ 0 → readLE s.mem (p - headerSize) 4 ≠ SENTINEL →
      tufree s fuel p = CResult.abort (p - headerSize)) := by
  refine ⟨?_, ?_, ?_⟩
  · intro h
    subst h
    rfl
  · intro h1 h2
    constructor
    · simp only [tufree, h2]
      rw [if_neg h1]
      simp
    · have h3 := readLE_writeLE_same s.mem (p - headerSize + 8) s.head 8
      simpa [hdrNext, setNext, ptrMod_eq] using h3
  · intro h1 h2
    simp only [tufree]
    rw [if_neg h1, if_neg h2]

/-- Closed instances of C4_release_contract: a null release on s4no leaves
the state alone; a release of payload 32 on s4yes (sentinel at header 16)
pushes and coalesces; a release of payload 32 on s4no (no sentinel) aborts
reporting header 16. -/
theorem C4_release_contract_witness :
    tufree s4no 5 0 = CResult.ok s4no 0 ∧
    (tufree s4yes 5 32 =
        CResult.ok
          { s4yes with
            mem := (coalesce (setNext s4yes.mem (32 - headerSize) s4yes.head) 5
                (32 - headerSize) (32 - headerSize)).1,
            head := 32 - headerSize } 0 ∧
      hdrNext (setNext s4yes.mem (32 - headerSize) s4yes.head) (32 - headerSize)
        = s4yes.head % ptrMod) ∧
    tufree s4no 5 32 = CResult.abort (32 - headerSize) :=
  ⟨(C4_release_contract s4no 5 0).1 rfl,
   (C4_release_contract s4yes 5 32).2.1 (by decide) (by decide),
   (C4_release_contract s4no 5 32).2.2 (by decide) (by decide)⟩

/-- C5: the coalescing invariant fails.  s5state holds two address-adjacent
releasable blocks, A at 64 and B at 19088823 = 64 + size_A + headerSize
(both size fields 0x01234567, the only value whose low four bytes pass
tufree's sentinel check).  Releasing A's payload 80 and then B's payload
19088839 — freeing both adjacent blocks in allocation order — makes
coalesce absorb B into A (A's size becomes 38177502, exactly the two sizes
plus one header, i.e. 0x01234567 + 0x01234567 + 16), but B is left on the
free list as its head: the list read from the head has the two entries
[19088823, 64], not the single spanning entry the claim requires. -/
theorem C5_coalesce_leaves_absorbed_block :
    (tufree s5state 10 80).isOk = true ∧
    (tufree c5s1 10 19088839).isOk = true ∧
    freeList c5s2.mem 10 c5s2.head = [19088823, 64] ∧
    hdrSize c5s2.mem 64 = 38177502 ∧
    hdrNext c5s2.mem 64 = 0 ∧
    hdrSize c5s2.mem 19088823 = 19088743 ∧
    38177502 = 19088743 + 19088743 + headerSize := by
  exact ⟨rfl, rfl, rfl, rfl, rfl, rfl, rfl⟩

/-- C6 counterexample: on s6state the block at 32 has size 20 (payload 48)
and the shrink Resize(48, 19) has 19 < 20, yet split's guard (20 < 19 + 16)
makes the split a no-op: turealloc returns the very same state and pointer,
the size field still reads 20, nothing was truncated to 19 and no residual
header was carved — refuting the claim that every shrink truncates in place
and frees a residual. -/
theorem C6_shrink_no_truncation_cex :
    turealloc s6state 10 48 19 = CResult.ok s6state 48 ∧
    hdrSize (CResult.stateOf (turealloc s6state 10 48 19)).mem 32 = 20 ∧
    (19 : Nat) < hdrSize s6state.mem 32 ∧
    hdrSize (CResult.stateOf (turealloc s6state 10 48 19)).mem 32 ≠ 19 := by
  exact ⟨rfl, rfl, by decide, by decide⟩

/-- C6 amended: a shrink (non-null pointer at least headerSize, new_size
below the block's current size) returns the same pointer, never touches the
free-list head or the break, and preserves the first new_size payload
bytes; the splitter truncates the size field to new_size and writes the
residual header (remainder size, old next link) at ptr + new_size only
when the current size is at least new_size + headerSize, and otherwise the
state is returned entirely unchanged; in neither case is the residual
inserted into the free list. -/
theorem C6_shrink_amended (s : AllocState) (fuel ptr new_size : Nat)
    (hp : headerSize ≤ ptr)
    (hlt : new_size < hdrSize s.mem (ptr - headerSize)) :
    ∃ s', turealloc s fuel ptr new_size = CResult.ok s' ptr ∧
      s'.head = s.head ∧ s'.brk = s.brk ∧
      (∀ i, i < new_size → s'.mem (ptr + i) = s.mem (ptr + i)) ∧
      (new_size + headerSize ≤ hdrSize s.mem (ptr - headerSize) →
        hdrSize s'.mem (ptr - headerSize) = new_size % ptrMod ∧
        hdrSize s'.mem (ptr + new_size)
          = hdrSize s.mem (ptr - headerSize) - new_size - headerSize ∧
        hdrNext s'.mem (ptr + new_size) = hdrNext s.mem (ptr - headerSize)) ∧
      (hdrSize s.mem (ptr - headerSize) < new_size + headerSize → s' = s) := by
  have h16 : headerSize = 16 := rfl
  have hp0 : ¬ ptr = 0 := by omega
  have hne : ¬ new_size = hdrSize s.mem (ptr - headerSize) := by omega
  by_cases hbig : new_size + headerSize ≤ hdrSize s.mem (ptr - headerSize)
  · obtain ⟨f1, f2, f3, f4, _, _⟩ := splitMem_spec s.mem (ptr - headerSize) new_size
    have haddr : ptr - headerSize + new_size + headerSize = ptr + new_size := by omega
    refine ⟨{ s with mem := splitMem s.mem (ptr - headerSize) new_size },
      ?_, rfl, rfl, ?_, ?_, ?_⟩
    · simp only [turealloc]
      rw [if_neg hp0, if_neg hne, if_pos hlt, split_eq_some _ _ _ hbig]
    · intro i hi
      exact f4 (ptr + i) (by omega) (by omega)
    · intro _
      rw [haddr] at f2 f3
      exact ⟨f1, f2, f3⟩
    · intro hcon
      exact absurd hcon (by omega)
  · refine ⟨s, ?_, rfl, rfl, fun i _ => rfl, ?_, fun _ => rfl⟩
    · simp only [turealloc]
      rw [if_neg hp0, if_neg hne, if_pos hlt]
      have hnone : split s.mem (ptr - headerSize) new_size = none := by
        rw [split_eq_none_iff]
        omega
      rw [hnone]
    · intro hcon
      exact absurd hcon (by omega)

/-- Closed instances of C6_shrink_amended: on s6b (block at 32, size 100)
the shrink Resize(48, 20) truncates in place and carves the residual at 68;
on s6state (size 20) the shrink Resize(48, 19) is the untouched no-op. -/
theorem C6_shrink_amended_witness :
    (∃ s', turealloc s6b 10 48 20 = CResult.ok s' 48 ∧
      s'.head = s6b.head ∧ s'.brk = s6b.brk ∧
      (∀ i, i < 20 → s'.mem (48 + i) = s6b.mem (48 + i)) ∧
      (20 + headerSize ≤ hdrSize s6b.mem (48 - headerSize) →
        hdrSize s'.mem (48 - headerSize) = 20 % ptrMod ∧
        hdrSize s'.mem (48 + 20)
          = hdrSize s6b.mem (48 - headerSize) - 20 - headerSize ∧
        hdrNext s'.mem (48 + 20) = hdrNext s6b.mem (48 - headerSize)) ∧
      (hdrSize s6b.mem (48 - headerSize) < 20 + headerSize → s' = s6b)) ∧
    (∃ s', turealloc s6state 10 48 19 = CResult.ok s' 48 ∧
      s'.head = s6state.head ∧ s'.brk = s6state.brk ∧
      (∀ i, i < 19 → s'.mem (48 + i) = s6state.mem (48 + i)) ∧
      (19 + headerSize ≤ hdrSize s6state.mem (48 - headerSize) →
        hdrSize s'.mem (48 - headerSize) = 19 % ptrMod ∧
        hdrSize s'.mem (48 + 19)
          = hdrSize s6state.mem (48 - headerSize) - 19 - headerSize ∧
        hdrNext s'.mem (48 + 19) = hdrNext s6state.mem (48 - headerSize)) ∧
      (hdrSize s6state.mem (48 - headerSize) < 19 + headerSize → s' = s6state)) :=
  ⟨C6_shrink_amended s6b 10 48 20 (by decide) (by decide),
   C6_shrink_amended s6state 10 48 19 (by decide) (by decide)⟩

/-- C7: split's contract (alloc.c lines 20-34).  It fails — returning none,
the model of the NULL return that leaves the candidate unchanged — exactly
when the candidate's size field is below size + headerSize; on success the
candidate's size field is truncated to the requested size, and the
brand-new header at candidate + size + headerSize holds the remainder
(old size - size - headerSize) as its size and the candidate's old next
link as its next. -/
theorem C7_split_contract (m : Mem) (block size : Nat) (hs : size < ptrMod) :
    (split m block size = none ↔ hdrSize m block < size + headerSize) ∧
    (size + headerSize ≤ hdrSize m block →
      ∃ m', split m block size = some m' ∧
        hdrSize m' block = size ∧
        hdrSize m' (block + size + headerSize)
          = hdrSize m block - size - headerSize ∧
        hdrNext m' (block + size + headerSize) = hdrNext m block) := by
  refine ⟨split_eq_none_iff m block size, ?_⟩
  intro h
  obtain ⟨f1, f2, f3, _, _, _⟩ := splitMem_spec m block size
  exact ⟨splitMem m block size, split_eq_some m block size h,
    by rw [f1, Nat.mod_eq_of_lt hs], f2, f3⟩

/-- Closed instances of C7_split_contract: on c7small (candidate of size
10) a request of 30 fails; on c7big (candidate of size 100) a request of 20
succeeds, truncating the candidate to 20 and writing the residual header of
size 64 at 36 with the candidate's old next link. -/
theorem C7_split_contract_witness :
    split c7small 0 30 = none ∧
    (∃ m', split c7big 0 20 = some m' ∧
      hdrSize m' 0 = 20 ∧
      hdrSize m' (0 + 20 + headerSize) = hdrSize c7big 0 - 20 - headerSize ∧
      hdrNext m' (0 + 20 + headerSize) = hdrNext c7big 0) :=
  ⟨(C7_split_contract c7small 0 30 (by decide)).1.mpr (by decide),
   (C7_split_contract c7big 0 20 (by decide)).2 (by decide)⟩

/-- C8: do_alloc (alloc.c lines 139-149) does return null when sbrk fails
(the all-ones address is misaligned, the round-up wraps it to 0, and 0 is
what the caller receives), and its result is 16-byte aligned; but the
at-least size + headerSize part of the contract fails whenever sbrk's
address is misaligned: from break 8 with size 32 the granted span is
[8, 56) — the break advances to 56 — while the returned, rounded-up address
is 16, so only 40 bytes remain below the new break, fewer than the
size + headerSize = 48 the contract promises. -/
theorem C8_do_alloc_short_region :
    (do_alloc s8state 32).2 = 16 ∧
    (do_alloc s8state 32).2 % 16 = 0 ∧
    (do_alloc s8state 32).1.brk = 56 ∧
    (do_alloc s8state 32).1.brk - (do_alloc s8state 32).2 = 40 ∧
    40 < 32 + headerSize ∧
    (do_alloc s8fail 32).2 = 0 := by
  refine ⟨by decide, by decide, by decide, by decide, by decide, by decide⟩

/-- C9: tucalloc (alloc.c lines 201-210) computes the size_t product
num * size, delegates that total to tumalloc, and, whenever tumalloc's
pointer is non-null, zero-fills exactly the total bytes at that pointer
before returning it; on a null pointer it returns null with the memory
exactly as tumalloc left it, performing no zero-fill. -/
theorem C9_zero_fill (s : AllocState) (fuel num size : Nat) :
    ((tumalloc s fuel (num * size % ptrMod)).2 ≠ 0 →
      (tucalloc s fuel num size).2 = (tumalloc s fuel (num * size % ptrMod)).2 ∧
      ∀ i, i < num * size % ptrMod →
        (tucalloc s fuel num size).1.mem
          ((tumalloc s fuel (num * size % ptrMod)).2 + i) = 0) ∧
    ((tumalloc s fuel (num * size % ptrMod)).2 = 0 →
      (tucalloc s fuel num size).2 = 0 ∧
      (tucalloc s fuel num size).1 = (tumalloc s fuel (num * size % ptrMod)).1) := by
  constructor
  · intro h
    constructor
    · simp only [tucalloc]
      rw [if_pos h]
    · intro i hi
      simp only [tucalloc]
      rw [if_pos h]
      show memset0 _ _ _ _ = 0
      rw [memset0_apply, if_pos (by omega)]
  · intro h
    simp only [tucalloc]
    rw [if_neg (by simpa using h)]
    exact ⟨h, rfl⟩

/-- Closed instances of C9_zero_fill: from s9a the allocation of 3 * 5
bytes returns 4096 and byte 4100 of the result is zero; from s9b (growth
refused) the result is null and the state is tumalloc's own. -/
theorem C9_zero_fill_witness :
    (tucalloc s9a 10 3 5).2 = 4096 ∧
    (tucalloc s9a 10 3 5).1.mem 4100 = 0 ∧
    (tucalloc s9b 10 3 5).2 = 0 := by
  refine ⟨?_, ?_, ?_⟩
  · exact ((C9_zero_fill s9a 10 3 5).1 (by decide)).1.trans (by decide)
  · have h := ((C9_zero_fill s9a 10 3 5).1 (by decide)).2 4 (by decide)
    simpa using h
  · exact ((C9_zero_fill s9b 10 3 5).2 (by decide)).1

/-- C10 counterexample: the claim's "the size field no longer holds the
requested size" is not universal.  With requested size 0x01234567 — the
sentinel value itself — the split-path allocation from s10state stamps the
four sentinel bytes over the low four bytes of a size field that already
holds exactly those bytes, so after the allocation the four bytes at the
header address are the sentinel AND the size field still equals the
requested size 0x01234567. -/
theorem C10_sentinel_alias_cex :
    readLE (tumalloc s10state 10 SENTINEL).1.mem 32 4 = SENTINEL ∧
    hdrSize (tumalloc s10state 10 SENTINEL).1.mem 32 = SENTINEL := by
  exact ⟨rfl, rfl⟩

/-- C10 amended: stampAllocated — the header writes of tumalloc's split
path (alloc.c lines 176-179), the size field assigned first and the 4-byte
sentinel then written at the header's base address over the start of that
same size field — always leaves the four bytes at the header address equal
to 0x01234567, and leaves the size field reading
2^32 * (size / 2^32 % 2^32) + 0x01234567, which differs from the requested
size exactly unless the requested size's low 32 bits are 0x01234567. -/
theorem C10_stamp_amended (m : Mem) (block size : Nat) :
    readLE (stampAllocated m block size) block 4 = SENTINEL ∧
    hdrSize (stampAllocated m block size) block
      = 2 ^ 32 * (size / 2 ^ 32 % 2 ^ 32) + SENTINEL ∧
    (size % 2 ^ 32 ≠ SENTINEL →
      hdrSize (stampAllocated m block size) block ≠ size) := by
  have hsent : readLE (stampAllocated m block size) block 4 = SENTINEL := by
    unfold stampAllocated
    rw [readLE_writeLE_same]
    decide
  have hlow : (2 : Nat) ^ 32 = 256 ^ 4 := by norm_num
  have hsize : hdrSize (stampAllocated m block size) block
      = 2 ^ 32 * (size / 2 ^ 32 % 2 ^ 32) + SENTINEL := by
    unfold hdrSize
    have hsplit := readLE_split (stampAllocated m block size) 4 4 block
    norm_num at hsplit
    rw [hsplit, hsent]
    have hhigh : readLE (stampAllocated m block size) (block + 4) 4
        = size / 2 ^ 32 % 2 ^ 32 := by
      unfold stampAllocated
      rw [readLE_writeLE_disjoint _ _ _ _ _ _ (by omega)]
      have := readLE_writeLE_within m block size 8 4 4 (by omega)
      rw [hlow]
      exact this
    rw [hhigh]
    ring
  refine ⟨hsent, hsize, ?_⟩
  intro hne heq
  apply hne
  rw [hsize] at heq
  have h1 := congrArg (· % 2 ^ 32) heq
  simp only [Nat.mul_add_mod] at h1
  have h2 : SENTINEL % 2 ^ 32 = SENTINEL := by decide
  rw [h2] at h1
  exact h1.symm

/-- Closed instance of C10_stamp_amended at requested size 5: the header's
four bytes are the sentinel and the size field reads 0x01234567, not 5. -/
theorem C10_stamp_amended_witness :
    readLE (stampAllocated mem0 0 5) 0 4 = SENTINEL ∧
    hdrSize (stampAllocated mem0 0 5) 0
      = 2 ^ 32 * (5 / 2 ^ 32 % 2 ^ 32) + SENTINEL ∧
    hdrSize (stampAllocated mem0 0 5) 0 ≠ 5 :=
  ⟨(C10_stamp_amended mem0 0 5).1, (C10_stamp_amended mem0 0 5).2.1,
   (C10_stamp_amended mem0 0 5).2.2 (by decide)⟩

end TuAlloc
